import Mathlib

/-!
Shallow embedding of `src/app.py` (a FastAPI app exposing an in-memory list
of country records) and proofs about its behavior.

The app holds a module-level mutable list `countries` seeded with three
records, and exposes three endpoints:
  * `GET /countries`          → `get_countries` returns the whole list;
  * `GET /countries/{id}`     → `get_country` converts the path parameter
    with Python `int(...)`, subtracts 1, and indexes the list with Python
    list-indexing semantics (negative indices wrap, out-of-range raises
    IndexError);
  * `POST /countries`         → `add_country` parses the body into a
    `Country` pydantic model and appends it, answering with status 201.

The pydantic model is
  `country_id: int = Field(default_factory=_find_next_id, alias="id")`,
so the factory `_find_next_id` (max of the current ids plus one) runs only
when the request payload has no `id` key; a supplied `id` is used as given.
Python exceptions (ValueError from `int`/`max`, IndexError from list
indexing) are modelled with an explicit result type.
-/

set_option maxHeartbeats 1000000

namespace ApiCountries

/-- The Python exceptions that the handlers can raise. -/
inductive PyErr where
  | valueError
  | indexError
deriving DecidableEq, Repr

/-- Outcome of running a handler: a value, or an unhandled Python exception. -/
inductive PyResult (α : Type) where
  | ok : α → PyResult α
  | error : PyErr → PyResult α
deriving DecidableEq, Repr

/-- The `Country` pydantic model of `src/app.py` lines 9-13: fields
`country_id` (JSON alias `id`), `name`, `capital`, `area`. -/
structure Country where
  country_id : Int
  name : String
  capital : String
  area : Int
deriving DecidableEq, Repr, Inhabited

/-- Maximum of the ids in a list of countries, i.e. Python
`max(country.country_id for country in countries)`; junk value 0 on the
empty list (where the Python `max` raises instead — see `find_next_id`). -/
def maxIds (st : List Country) : Int :=
  match st.map (fun c => c.country_id) with
  | [] => 0
  | x :: xs => xs.foldl max x

/-- Models `_find_next_id` (`src/app.py` lines 6-7):
`max(country.country_id for country in countries) + 1`.
Python `max` raises ValueError on an empty sequence. -/
def find_next_id (st : List Country) : PyResult Int :=
  match st.map (fun c => c.country_id) with
  | [] => PyResult.error PyErr.valueError
  | x :: xs => PyResult.ok (xs.foldl max x + 1)

/-- The seed collection (`src/app.py` lines 15-19). -/
def countries : List Country :=
  [ { country_id := 1, name := "Thailand", capital := "Bangkok", area := 513120 },
    { country_id := 2, name := "Australia", capital := "Canberra", area := 7617930 },
    { country_id := 3, name := "Egypt", capital := "Cairo", area := 1010408 } ]

/-- Code points of the characters Python `int(str)` strips as surrounding
whitespace: the ASCII whitespace accepted by the C-level parse (tab,
newline, vertical tab, form feed, carriage return, space) together with the
non-ASCII Unicode whitespace that CPython's decimal transform first maps to
a space (CPython 3.11, Unicode 14.0). -/
def pyWhitespacePoints : List Nat :=
  [0x9, 0xA, 0xB, 0xC, 0xD, 0x20, 0x85, 0xA0, 0x1680,
   0x2000, 0x2001, 0x2002, 0x2003, 0x2004, 0x2005, 0x2006, 0x2007, 0x2008,
   0x2009, 0x200A, 0x2028, 0x2029, 0x202F, 0x205F, 0x3000]

/-- Is `c` whitespace for Python `int(str)`? -/
def pyWhitespaceChar (c : Char) : Bool := pyWhitespacePoints.contains c.toNat

/-- The digit-zero code points of every decade of Unicode 14.0 decimal
digits (general category Nd), the digits Python `int(str)` accepts
(CPython 3.11): each entry `z` starts a run `z .. z+9` of consecutive code
points carrying the values 0..9 (the mathematical alphanumeric block
0x1D7CE..0x1D7FF holds five such decades). -/
def decimalZeroPoints : List Nat :=
  [0x30, 0x660, 0x6F0, 0x7C0, 0x966, 0x9E6, 0xA66, 0xAE6, 0xB66, 0xBE6,
   0xC66, 0xCE6, 0xD66, 0xDE6, 0xE50, 0xED0, 0xF20, 0x1040, 0x1090, 0x17E0,
   0x1810, 0x1946, 0x19D0, 0x1A80, 0x1A90, 0x1B50, 0x1BB0, 0x1C40, 0x1C50,
   0xA620, 0xA8D0, 0xA900, 0xA9D0, 0xA9F0, 0xAA50, 0xABF0, 0xFF10,
   0x104A0, 0x10D30, 0x11066, 0x110F0, 0x11136, 0x111D0, 0x112F0, 0x11450,
   0x114D0, 0x11650, 0x116C0, 0x11730, 0x118E0, 0x11950, 0x11C50, 0x11D50,
   0x11DA0, 0x16A60, 0x16AC0, 0x16B50,
   0x1D7CE, 0x1D7D8, 0x1D7E2, 0x1D7EC, 0x1D7F6,
   0x1E140, 0x1E2F0, 0x1E950, 0x1FBF0]

/-- Decimal value of a Unicode decimal digit (any script), `none` for a
non-digit: the character classification Python `int(str)` parses with. -/
def unicodeDigitVal (c : Char) : Option Nat :=
  match decimalZeroPoints.find? (fun z => z ≤ c.toNat && c.toNat ≤ z + 9) with
  | some z => some (c.toNat - z)
  | none => none

/-- Continues parsing a Python decimal digit run after its first digit:
further digits, with single underscores allowed only between digits. -/
def pyDigitsAux : List Char → Nat → Option Nat
  | [], acc => some acc
  | '_' :: c :: rest, acc =>
      match unicodeDigitVal c with
      | some d => pyDigitsAux rest (acc * 10 + d)
      | none => none
  | c :: rest, acc =>
      match unicodeDigitVal c with
      | some d => pyDigitsAux rest (acc * 10 + d)
      | none => none

/-- Parses a nonempty Python decimal digit run (`digit (["_"] digit)*`),
over decimal digits of any script. -/
def pyDigits : List Char → Option Nat
  | [] => none
  | c :: rest =>
      match unicodeDigitVal c with
      | some d => pyDigitsAux rest d
      | none => none

/-- Strips leading and trailing whitespace, as Python `int(str)` does. -/
def pyStrip (cs : List Char) : List Char :=
  ((cs.dropWhile pyWhitespaceChar).reverse.dropWhile pyWhitespaceChar).reverse

/-- Models Python `int(s)` on a decimal string: optional surrounding
whitespace (Unicode), an optional ASCII sign, then a nonempty run of
decimal digits of any script (Unicode category Nd, e.g. `int("٢") = 2`)
with single underscores allowed between digits; `none` models the
ValueError raised when the string is not parseable. -/
def pyInt (s : String) : Option Int :=
  match pyStrip s.data with
  | '+' :: rest => (pyDigits rest).map (fun n => (n : Int))
  | '-' :: rest => (pyDigits rest).map (fun n => -(n : Int))
  | cs => (pyDigits cs).map (fun n => (n : Int))

/-- Models `get_countries` (`src/app.py` lines 21-23): returns the current
collection unchanged. -/
def get_countries (st : List Country) : List Country := st

/-- Python list indexing `l[i]` for an `int` index: negative indices wrap by
adding the length; an index out of `[-len, len)` raises IndexError. -/
def pyIndex (st : List Country) (i : Int) : PyResult Country :=
  let j : Int := if i < 0 then i + (st.length : Int) else i
  if 0 ≤ j ∧ j < (st.length : Int) then PyResult.ok (st.getD j.toNat default)
  else PyResult.error PyErr.indexError

/-- Models `get_country` (`src/app.py` lines 25-28): the untyped path
parameter arrives as a string; `id = int(id) - 1; return countries[id]`. -/
def get_country (st : List Country) (s : String) : PyResult Country :=
  match pyInt s with
  | none => PyResult.error PyErr.valueError
  | some i => pyIndex st (i - 1)

/-- A create-request body: `name`, `capital`, `area` required, `id` optional
(the pydantic field `country_id` carries alias `id` with a default factory,
so the JSON key `id` may be present or absent). -/
structure CountryPayload where
  id? : Option Int
  name : String
  capital : String
  area : Int
deriving DecidableEq, Repr

/-- Pydantic validation of a request body against the `Country` model, in the
current state `st`: a supplied `id` populates `country_id` via the alias;
when `id` is absent the default factory `_find_next_id` runs against the
current global `countries` list. -/
def parseCountry (st : List Country) (p : CountryPayload) : PyResult Country :=
  match p.id? with
  | some i => PyResult.ok { country_id := i, name := p.name, capital := p.capital, area := p.area }
  | none =>
    match find_next_id st with
    | PyResult.ok nid =>
        PyResult.ok { country_id := nid, name := p.name, capital := p.capital, area := p.area }
    | PyResult.error e => PyResult.error e

/-- The record that a successful create builds from payload `p` in state
`st` (the success value of `parseCountry`, written as a total function). -/
def createdCountry (st : List Country) (p : CountryPayload) : Country :=
  { country_id := match p.id? with | some i => i | none => maxIds st + 1,
    name := p.name, capital := p.capital, area := p.area }

/-- Models `add_country` (`src/app.py` lines 30-33): the body is validated
into a `Country`, appended to the collection, and returned with status 201
(set by the route decorator). Returns (response body, new state, status). -/
def add_country (st : List Country) (p : CountryPayload) : PyResult (Country × List Country × Nat) :=
  match parseCountry st p with
  | PyResult.ok c => PyResult.ok (c, st ++ [c], 201)
  | PyResult.error e => PyResult.error e

/-- One sequential request against the API. -/
inductive Op where
  | list
  | get (s : String)
  | create (p : CountryPayload)
deriving DecidableEq, Repr

/-- State transition of one request: reads leave the collection unchanged
(also when they raise), a create appends on success and leaves the state
unchanged when validation raises before the append. -/
def step (st : List Country) (op : Op) : List Country :=
  match op with
  | Op.list => st
  | Op.get _ => st
  | Op.create p =>
    match add_country st p with
    | PyResult.ok (_, st2, _) => st2
    | PyResult.error _ => st

/-- The collection after serving a sequence of requests from process start. -/
def run (ops : List Op) : List Country := ops.foldl step countries

/-- Does the request avoid supplying an `id` in a create body? -/
def omitsId (op : Op) : Bool :=
  match op with
  | Op.create p => p.id?.isNone
  | _ => true

/-! ### Helper lemmas -/

theorem le_foldl_max (xs : List Int) (a : Int) : a ≤ xs.foldl max a := by
  induction xs generalizing a with
  | nil => exact le_refl a
  | cons y ys ih =>
    calc a ≤ max a y := le_max_left a y
    _ ≤ ys.foldl max (max a y) := ih (max a y)

theorem mem_le_foldl_max (xs : List Int) (a x : Int) (h : x ∈ xs) : x ≤ xs.foldl max a := by
  induction xs generalizing a with
  | nil => cases h
  | cons y ys ih =>
    rcases List.mem_cons.mp h with hxy | hmem
    · subst hxy
      calc x ≤ max a x := le_max_right a x
      _ ≤ ys.foldl max (max a x) := le_foldl_max ys (max a x)
    · exact ih (max a y) hmem

theorem mem_ids_le_maxIds (st : List Country) (x : Int)
    (h : x ∈ st.map (fun c => c.country_id)) : x ≤ maxIds st := by
  unfold maxIds
  cases hm : st.map (fun c => c.country_id) with
  | nil => rw [hm] at h; cases h
  | cons y ys =>
    rw [hm] at h
    rcases List.mem_cons.mp h with hxy | hmem
    · subst hxy; exact le_foldl_max ys x
    · exact mem_le_foldl_max ys y x hmem

theorem find_next_id_ok (st : List Country) (h : st ≠ []) :
    find_next_id st = PyResult.ok (maxIds st + 1) := by
  unfold find_next_id maxIds
  cases hm : st.map (fun c => c.country_id) with
  | nil => exact absurd (List.map_eq_nil_iff.mp hm) h
  | cons y ys => rfl

theorem add_country_ok (st : List Country) (p : CountryPayload) (h : st ≠ []) :
    add_country st p
      = PyResult.ok (createdCountry st p, st ++ [createdCountry st p], 201) := by
  cases hid : p.id? with
  | some i => simp [add_country, parseCountry, createdCountry, hid]
  | none => simp [add_country, parseCountry, createdCountry, hid, find_next_id_ok st h]

theorem step_create (st : List Country) (p : CountryPayload) (h : st ≠ []) :
    step st (Op.create p) = st ++ [createdCountry st p] := by
  simp [step, add_country_ok st p h]

theorem foldl_step_shape (ops : List Op) :
    ∀ st : List Country, st ≠ [] → ∃ rest, List.foldl step st ops = st ++ rest := by
  induction ops with
  | nil => intro st _; exact ⟨[], by simp⟩
  | cons op ops ih =>
    intro st h
    have hstep : ∃ s0, step st op = st ++ s0 := by
      cases op with
      | list => exact ⟨[], by simp [step]⟩
      | get s => exact ⟨[], by simp [step]⟩
      | create p => exact ⟨[createdCountry st p], step_create st p h⟩
    obtain ⟨s0, hs0⟩ := hstep
    have hne : step st op ≠ [] := by
      rw [hs0]
      intro hc
      exact h (List.append_eq_nil.mp hc).1
    obtain ⟨rest, hrest⟩ := ih (step st op) hne
    refine ⟨s0 ++ rest, ?_⟩
    rw [List.foldl_cons, hrest, hs0, List.append_assoc]

theorem run_shape (ops : List Op) : ∃ rest, run ops = countries ++ rest :=
  foldl_step_shape ops countries (by decide)

theorem run_ne_nil (ops : List Op) : run ops ≠ [] := by
  obtain ⟨rest, hr⟩ := run_shape ops
  rw [hr]
  simp [countries]

theorem foldl_create_length (ps : List CountryPayload) :
    ∀ st : List Country, st ≠ [] →
      (List.foldl step st (ps.map Op.create)).length = st.length + ps.length := by
  induction ps with
  | nil => intro st _; simp
  | cons p ps ih =>
    intro st h
    rw [List.map_cons, List.foldl_cons, step_create st p h]
    have hne : st ++ [createdCountry st p] ≠ [] := by simp
    rw [ih _ hne]
    simp [List.length_append]
    omega

theorem nodup_foldl (ops : List Op) :
    ∀ st : List Country, st ≠ [] → (st.map (fun c => c.country_id)).Nodup →
      (∀ op ∈ ops, omitsId op = true) →
      ((List.foldl step st ops).map (fun c => c.country_id)).Nodup := by
  induction ops with
  | nil => intro st _ hnd _; simpa using hnd
  | cons op ops ih =>
    intro st hne hnd hall
    have hop : omitsId op = true := hall op (List.mem_cons_self op ops)
    have hall' : ∀ o ∈ ops, omitsId o = true := fun o ho => hall o (List.mem_cons_of_mem op ho)
    rw [List.foldl_cons]
    cases op with
    | list => exact ih st hne hnd hall'
    | get s => exact ih st hne hnd hall'
    | create p =>
      have hidn : p.id? = none := by
        simpa [omitsId, Option.isNone_iff_eq_none] using hop
      rw [step_create st p hne]
      apply ih
      · simp
      · rw [List.map_append, List.nodup_append]
        refine ⟨hnd, by simp, ?_⟩
        intro x hx hy
        have hxle : x ≤ maxIds st := mem_ids_le_maxIds st x hx
        have hxeq : x = maxIds st + 1 := by
          simpa [createdCountry, hidn] using hy
        omega
      · exact hall'

/-! ### Claim C1 -/

/-- C1, counterexample: a create request that supplies `id: 42` against the
seed state stores and returns a record with id 42, while auto-assignment
would have produced `max + 1 = 4`; the supplied id is not overwritten. -/
theorem supplied_id_not_overwritten_cex :
    add_country countries { id? := some 42, name := "Germany", capital := "Berlin", area := 357022 }
      = PyResult.ok ({ country_id := 42, name := "Germany", capital := "Berlin", area := 357022 },
          countries ++ [{ country_id := 42, name := "Germany", capital := "Berlin", area := 357022 }], 201)
    ∧ find_next_id countries = PyResult.ok 4 ∧ (42 : Int) ≠ 4 := by
  decide

/-- C1, amended: an `id` supplied in a create payload is honored as the
stored and returned record's id (auto-assignment runs only when the payload
omits `id`): for every state and every payload carrying `id = i`, the create
stores and returns the payload's fields with id exactly `i`. -/
theorem create_honors_supplied_id (st : List Country) (nm cap : String) (ar i : Int) :
    add_country st { id? := some i, name := nm, capital := cap, area := ar }
      = PyResult.ok ({ country_id := i, name := nm, capital := cap, area := ar },
          st ++ [{ country_id := i, name := nm, capital := cap, area := ar }], 201) := by
  simp [add_country, parseCountry]

/-! ### Claim C2 -/

/-- C2, counterexample: a single create that supplies the already-used
`id: 1` produces a collection whose ids 1, 2, 3, 1 are not pairwise
distinct, refuting distinctness over all sequences of operations. -/
theorem duplicate_ids_after_supplied_id_cex :
    ¬ ((run [Op.create { id? := some 1, name := "X", capital := "Y", area := 1 }]).map
        (fun c => c.country_id)).Nodup := by
  decide

/-- C2, amended: for every sequence of list, get-by-position and create
requests starting from the seed state, in which every create omits the `id`
field, the ids in the collection are pairwise distinct at all times. -/
theorem ids_nodup_when_creates_omit_id (ops : List Op) (h : ops.all omitsId = true) :
    ((run ops).map (fun c => c.country_id)).Nodup := by
  have h' : ∀ op ∈ ops, omitsId op = true := by simpa using h
  exact nodup_foldl ops countries (by decide) (by decide) h'

/-- C2, witness: a concrete three-request sequence whose create omits `id`
keeps the ids pairwise distinct. -/
theorem ids_nodup_when_creates_omit_id_witness :
    ([Op.list, Op.create { id? := none, name := "Germany", capital := "Berlin", area := 357022 },
        Op.get "1"].all omitsId = true)
    ∧ ((run [Op.list, Op.create { id? := none, name := "Germany", capital := "Berlin", area := 357022 },
        Op.get "1"]).map (fun c => c.country_id)).Nodup :=
  ⟨by decide, ids_nodup_when_creates_omit_id _ (by decide)⟩

/-! ### Claim C3 -/

/-- C3, counterexample: a create supplying `id: 10` against the seed state
creates a record with id 10, while one more than the maximum id previously
present is 4. -/
theorem supplied_id_breaks_max_rule_cex :
    add_country countries { id? := some 10, name := "X", capital := "Y", area := 1 }
      = PyResult.ok ({ country_id := 10, name := "X", capital := "Y", area := 1 },
          countries ++ [{ country_id := 10, name := "X", capital := "Y", area := 1 }], 201)
    ∧ find_next_id countries = PyResult.ok 4 ∧ (10 : Int) ≠ 4 := by
  decide

/-- C3, amended: for every create whose payload omits `id`, in every
nonempty state, the newly created record's id equals one more than the
maximum id present in the collection immediately before the create. -/
theorem create_without_id_assigns_max_plus_one (st : List Country) (p : CountryPayload)
    (h : st ≠ []) (hid : p.id? = none) :
    add_country st p
      = PyResult.ok ({ country_id := maxIds st + 1, name := p.name, capital := p.capital, area := p.area },
          st ++ [{ country_id := maxIds st + 1, name := p.name, capital := p.capital, area := p.area }], 201) := by
  have := add_country_ok st p h
  simpa [createdCountry, hid] using this

/-- C3, witness: creating Germany without an `id` against the seed state
assigns id `maxIds countries + 1`. -/
theorem create_without_id_assigns_max_plus_one_witness :
    countries ≠ []
    ∧ ({ id? := none, name := "Germany", capital := "Berlin", area := 357022 } : CountryPayload).id? = none
    ∧ add_country countries { id? := none, name := "Germany", capital := "Berlin", area := 357022 }
      = PyResult.ok ({ country_id := maxIds countries + 1, name := "Germany", capital := "Berlin", area := 357022 },
          countries ++ [{ country_id := maxIds countries + 1, name := "Germany", capital := "Berlin", area := 357022 }], 201) :=
  ⟨by decide, rfl,
    create_without_id_assigns_max_plus_one countries
      { id? := none, name := "Germany", capital := "Berlin", area := 357022 } (by decide) rfl⟩

/-! ### Claim C4 -/

/-- C4, counterexample: position 0 on the seed collection of size 3 is less
than 1, so the claim predicts an out-of-range failure, but the handler
returns the last record (Egypt) via negative indexing. -/
theorem position_zero_returns_last_record_cex :
    pyInt "0" = some 0 ∧ (0 : Int) < 1
    ∧ get_country countries "0"
        = PyResult.ok { country_id := 3, name := "Egypt", capital := "Cairo", area := 1010408 } := by
  decide

/-- C4, amended: for an integer position `p` over a collection of size `n`,
get-by-position fails with an (unhandled) out-of-range error if and only if
`p > n` or `p < 1 - n`; for `1 ≤ p ≤ n` it returns the record at zero-based
index `p - 1`. -/
theorem get_by_position_range (st : List Country) (s : String) (p : Int)
    (h : pyInt s = some p) :
    (get_country st s = PyResult.error PyErr.indexError
        ↔ ((st.length : Int) < p ∨ p < 1 - (st.length : Int)))
    ∧ (1 ≤ p → p ≤ (st.length : Int) →
        get_country st s = PyResult.ok (st.getD (p - 1).toNat default)) := by
  unfold get_country
  rw [h]
  simp only [pyIndex]
  by_cases hneg : p - 1 < 0
  · rw [if_pos hneg]
    by_cases hin : 0 ≤ p - 1 + (st.length : Int) ∧ p - 1 + (st.length : Int) < (st.length : Int)
    · rw [if_pos hin]
      obtain ⟨hin1, hin2⟩ := hin
      refine ⟨⟨fun he => absurd he (by simp), fun harith => by exfalso; omega⟩, ?_⟩
      intro h1 _
      exfalso
      omega
    · rw [if_neg hin]
      have hd := not_and_or.mp hin
      refine ⟨⟨fun _ => by omega, fun _ => rfl⟩, ?_⟩
      intro h1 _
      exfalso
      omega
  · rw [if_neg hneg]
    by_cases hin : 0 ≤ p - 1 ∧ p - 1 < (st.length : Int)
    · rw [if_pos hin]
      obtain ⟨hin1, hin2⟩ := hin
      refine ⟨⟨fun he => absurd he (by simp), fun harith => by exfalso; omega⟩, ?_⟩
      intro _ _
      rfl
    · rw [if_neg hin]
      have hd := not_and_or.mp hin
      refine ⟨⟨fun _ => by omega, fun _ => rfl⟩, ?_⟩
      intro h1 h2
      exact absurd ⟨by omega, by omega⟩ hin

/-- C4, witness: position 2 on the seed collection of size 3 is in range,
so the error condition is false and record Australia (index 1) is returned. -/
theorem get_by_position_range_witness :
    pyInt "2" = some 2
    ∧ ((get_country countries "2" = PyResult.error PyErr.indexError
          ↔ ((countries.length : Int) < 2 ∨ (2 : Int) < 1 - (countries.length : Int)))
        ∧ ((1 : Int) ≤ 2 → (2 : Int) ≤ (countries.length : Int) →
            get_country countries "2" = PyResult.ok (countries.getD ((2 : Int) - 1).toNat default))) :=
  ⟨by decide, get_by_position_range countries "2" 2 (by decide)⟩

/-! ### Claim C5 -/

/-- C5: for an integer position `p` with `1 - n ≤ p ≤ 0` over a collection
of size `n`, get-by-position does not error: Python negative indexing wraps
and the record at zero-based index `n + p - 1` is returned. -/
theorem get_by_nonpositive_position_wraps (st : List Country) (s : String) (p : Int)
    (h : pyInt s = some p) (h1 : 1 - (st.length : Int) ≤ p) (h2 : p ≤ 0) :
    get_country st s = PyResult.ok (st.getD ((st.length : Int) + p - 1).toNat default) := by
  unfold get_country
  rw [h]
  simp only [pyIndex]
  have hneg : p - 1 < 0 := by omega
  rw [if_pos hneg]
  have hin : 0 ≤ p - 1 + (st.length : Int) ∧ p - 1 + (st.length : Int) < (st.length : Int) := by
    constructor <;> omega
  rw [if_pos hin]
  have harith : p - 1 + (st.length : Int) = (st.length : Int) + p - 1 := by ring
  rw [harith]

/-- C5, witness: position 0 on the seed collection of size 3 wraps to
zero-based index 2 and returns the last record. -/
theorem get_by_nonpositive_position_wraps_witness :
    pyInt "0" = some 0 ∧ 1 - (countries.length : Int) ≤ 0 ∧ (0 : Int) ≤ 0
    ∧ get_country countries "0"
        = PyResult.ok (countries.getD ((countries.length : Int) + 0 - 1).toNat default) :=
  ⟨by decide, by decide, by decide,
    get_by_nonpositive_position_wraps countries "0" 0 (by decide) (by decide) (by decide)⟩

/-! ### Claim C6 -/

/-- C6: every successful create modifies the collection only by appending
the response record at the end — the new state is exactly the old state
with the returned record appended — and the status code is 201. -/
theorem create_appends_exactly_one (st : List Country) (p : CountryPayload)
    (c : Country) (st' : List Country) (code : Nat)
    (h : add_country st p = PyResult.ok (c, st', code)) :
    st' = st ++ [c] ∧ code = 201 := by
  unfold add_country at h
  cases hp : parseCountry st p with
  | ok c0 =>
    rw [hp] at h
    have h' : c0 = c ∧ st ++ [c0] = st' ∧ 201 = code := by
      simpa using h
    obtain ⟨hc, hst, hcode⟩ := h'
    subst hc
    exact ⟨hst.symm, hcode.symm⟩
  | error e =>
    rw [hp] at h
    exact absurd h (by simp)

/-- C6, witness: creating Germany (no `id`) against the seed state appends
exactly the response record and answers 201. -/
theorem create_appends_exactly_one_witness :
    add_country countries { id? := none, name := "Germany", capital := "Berlin", area := 357022 }
      = PyResult.ok ({ country_id := 4, name := "Germany", capital := "Berlin", area := 357022 },
          countries ++ [{ country_id := 4, name := "Germany", capital := "Berlin", area := 357022 }], 201)
    ∧ (countries ++ [{ country_id := 4, name := "Germany", capital := "Berlin", area := 357022 }]
        = countries ++ [{ country_id := 4, name := "Germany", capital := "Berlin", area := 357022 }]
      ∧ (201 : Nat) = 201) :=
  ⟨by decide,
    create_appends_exactly_one countries
      { id? := none, name := "Germany", capital := "Berlin", area := 357022 }
      { country_id := 4, name := "Germany", capital := "Berlin", area := 357022 }
      (countries ++ [{ country_id := 4, name := "Germany", capital := "Berlin", area := 357022 }])
      201 (by decide)⟩

/-! ### Claim C7 -/

/-- C7: listing always succeeds and returns the full collection as is; after
N creates from the seed state, it returns exactly N + 3 records, and the
first 3 are the seed records (the N created ones follow in creation order,
since each create appends at the end). -/
theorem listing_after_creates (ps : List CountryPayload) :
    get_countries (run (ps.map Op.create)) = run (ps.map Op.create)
    ∧ (get_countries (run (ps.map Op.create))).length = ps.length + 3
    ∧ (get_countries (run (ps.map Op.create))).take 3 = countries := by
  refine ⟨rfl, ?_, ?_⟩
  · have hlen := foldl_create_length ps countries (by decide)
    have hrun : run (ps.map Op.create) = List.foldl step countries (ps.map Op.create) := rfl
    rw [get_countries, hrun, hlen]
    simp [countries]
    omega
  · obtain ⟨rest, hr⟩ := run_shape (ps.map Op.create)
    rw [get_countries, hr]
    have h3 : countries.length = 3 := by decide
    rw [← h3, List.take_left]

/-! ### Claim C8 -/

/-- C8: in the startup state (no requests served), listing returns exactly
the three seed records Thailand, Australia, Egypt with their ids, capitals
and areas, in order. -/
theorem startup_listing_is_seed :
    get_countries (run []) =
      [ { country_id := 1, name := "Thailand", capital := "Bangkok", area := 513120 },
        { country_id := 2, name := "Australia", capital := "Canberra", area := 7617930 },
        { country_id := 3, name := "Egypt", capital := "Cairo", area := 1010408 } ] := by
  decide

/-! ### Claim C9 -/

/-- C9: after every sequence of requests, the collection still starts with
the three seed records (no operation removes or mutates a stored record), it
is never empty, and the id-assignment function `_find_next_id` therefore
takes its maximum over a nonempty collection: its ValueError branch for an
empty collection is unreachable. -/
theorem seed_persists_and_next_id_defined (ops : List Op) :
    (run ops).take 3 = countries
    ∧ run ops ≠ []
    ∧ find_next_id (run ops) = PyResult.ok (maxIds (run ops) + 1) := by
  refine ⟨?_, run_ne_nil ops, find_next_id_ok (run ops) (run_ne_nil ops)⟩
  obtain ⟨rest, hr⟩ := run_shape ops
  rw [hr]
  have h3 : countries.length = 3 := by decide
  rw [← h3, List.take_left]

/-! ### Claim C10 -/

/-- C10: a GET /countries/{id} request whose path parameter does not parse
as a decimal integer raises the ValueError of `int(...)` before any list
access — no record is returned and the collection is unchanged. -/
theorem nonint_path_param_raises_before_access (st : List Country) (s : String)
    (h : pyInt s = none) :
    get_country st s = PyResult.error PyErr.valueError ∧ step st (Op.get s) = st := by
  constructor
  · unfold get_country
    rw [h]
  · rfl

/-- C10, witness: the non-numeric path parameter "abc" raises ValueError on
the seed collection and leaves it unchanged. -/
theorem nonint_path_param_raises_before_access_witness :
    pyInt "abc" = none
    ∧ (get_country countries "abc" = PyResult.error PyErr.valueError
        ∧ step countries (Op.get "abc") = countries) :=
  ⟨by decide, nonint_path_param_raises_before_access countries "abc" (by decide)⟩

end ApiCountries
